import Mathlib

/- Shallow embedding of the headshot crop-and-fit core of
   src/headshot_generator/processing/headshot_processor.py and of the
   parameter validation in src/headshot_generator/models/session_state.py.

   Modelling conventions:
   * Python machine integers are modelled as ℤ.
   * Python floats are modelled as ℚ (exact arithmetic standing in for
     IEEE doubles; every float the code builds comes from integer inputs
     and a handful of ring operations and divisions).
   * Python `int(x)` on a float is truncation toward zero (`pyInt`).
   * Python `//` on integers is floor division (`Int.fdiv`).
   * PIL images are modelled at the granularity each claim needs:
     a size `(width, height) : ℤ × ℤ` for the geometric pipeline, and a
     list of RGB pixels for the grayscale transform. -/

/-- Python `int(x)` applied to a float: truncation toward zero
(`int(2.7) = 2`, `int(-2.7) = -2`). -/
def pyInt (q : ℚ) : ℤ := if 0 ≤ q then ⌊q⌋ else -⌊-q⌋

/-- A crop rectangle `(left, top, right, bottom)` in pixel coordinates,
as passed to `PIL.Image.crop`. -/
structure CropRect where
  left : ℤ
  top : ℤ
  right : ℤ
  bottom : ℤ
deriving DecidableEq, Repr

/-- Mirrors `HeadshotProcessor._constrain_crop_bounds(left, top, right, bottom,
img_width, img_height)`: four width/height-preserving shifts (one per edge),
then a hard clamp of every component to the image.  Each Python `if`
updates two variables; the functional form below binds the updated pair. -/
def constrainCropBounds (left top right bottom imgW imgH : ℤ) : CropRect :=
  -- if left < 0: right -= left; left = 0
  let r1 := if left < 0 then right - left else right
  let l1 := if left < 0 then 0 else left
  -- if top < 0: bottom -= top; top = 0
  let b1 := if top < 0 then bottom - top else bottom
  let t1 := if top < 0 then 0 else top
  -- if right > img_width: left -= (right - img_width); right = img_width
  let l2 := if r1 > imgW then l1 - (r1 - imgW) else l1
  let r2 := if r1 > imgW then imgW else r1
  -- if bottom > img_height: top -= (bottom - img_height); bottom = img_height
  let t2 := if b1 > imgH then t1 - (b1 - imgH) else t1
  let b2 := if b1 > imgH then imgH else b1
  -- final bounds check
  ⟨max 0 l2, max 0 t2, min imgW r2, min imgH b2⟩

/-- The non-strict in-bounds predicate:
`0 ≤ left ≤ right ≤ image_width` and `0 ≤ top ≤ bottom ≤ image_height`. -/
def InBoundsLe (c : CropRect) (imgW imgH : ℤ) : Prop :=
  0 ≤ c.left ∧ c.left ≤ c.right ∧ c.right ≤ imgW ∧
  0 ≤ c.top ∧ c.top ≤ c.bottom ∧ c.bottom ≤ imgH

instance (c : CropRect) (imgW imgH : ℤ) : Decidable (InBoundsLe c imgW imgH) := by
  unfold InBoundsLe
  infer_instance

/-- The strict in-bounds predicate of the spec:
`0 ≤ left < right ≤ image_width` and `0 ≤ top < bottom ≤ image_height`. -/
def InBoundsLt (c : CropRect) (imgW imgH : ℤ) : Prop :=
  0 ≤ c.left ∧ c.left < c.right ∧ c.right ≤ imgW ∧
  0 ≤ c.top ∧ c.top < c.bottom ∧ c.bottom ≤ imgH

instance (c : CropRect) (imgW imgH : ℤ) : Decidable (InBoundsLt c imgW imgH) := by
  unfold InBoundsLt
  infer_instance

/-- Mirrors `HeadshotProcessor._center_crop` up to (not including) the call to
`_constrain_crop_bounds`: the raw centered box with zoom and pixel shifts. -/
def centerCropRaw (width height targetW targetH : ℤ) (zoom : ℚ)
    (shiftX shiftY : ℤ) : CropRect :=
  let targetRatioQ : ℚ := (targetW : ℚ) / (targetH : ℚ)
  let baseCropWidth := min width (pyInt ((height : ℚ) * targetRatioQ))
  let baseCropHeight := min height (pyInt ((width : ℚ) / targetRatioQ))
  let cropWidth := pyInt ((baseCropWidth : ℚ) * zoom)
  let cropHeight := pyInt ((baseCropHeight : ℚ) * zoom)
  let cropLeft := (width - cropWidth).fdiv 2 + shiftX
  let cropTop := (height - cropHeight).fdiv 2 + shiftY
  ⟨cropLeft, cropTop, cropLeft + cropWidth, cropTop + cropHeight⟩

/-- Mirrors `HeadshotProcessor._center_crop`: raw centered box, then bounds
constraining.  (The subsequent `image.crop` takes exactly this rectangle.) -/
def centerCrop (width height targetW targetH : ℤ) (zoom : ℚ)
    (shiftX shiftY : ℤ) : CropRect :=
  let c := centerCropRaw width height targetW targetH zoom shiftX shiftY
  constrainCropBounds c.left c.top c.right c.bottom width height

/-- Applying `pyInt` to a non-negative rational gives its floor, hence is non-negative. -/
theorem pyInt_nonneg {q : ℚ} (h : 0 ≤ q) : 0 ≤ pyInt q := by
  unfold pyInt
  rw [if_pos h]
  exact Int.floor_nonneg.mpr h

/-- Applying `pyInt` to a non-negative rational equals taking its floor. -/
theorem pyInt_eq_floor {q : ℚ} (h : 0 ≤ q) : pyInt q = ⌊q⌋ := by
  unfold pyInt
  rw [if_pos h]

/-- A detected face bounding box `(x, y, w, h)`, as returned by the
OpenCV cascade (the external FaceLocator). -/
structure FaceBox where
  x : ℤ
  y : ℤ
  w : ℤ
  h : ℤ
deriving DecidableEq, Repr

/-- The processing-parameter set for one call, in the typed form of
`ProcessingParameters` (models/session_state.py).  The processor receives
it as the dict produced by `to_dict`, whose keys `padding_top_ratio`,
`padding_bottom_ratio`, `padding_side_ratio` carry the `paddingTop`,
`paddingBottom`, `paddingSide` fields.  `borderColor` is an opaque color
code (only passed through to the border fill). -/
structure Params where
  targetWidth : ℤ
  targetHeight : ℤ
  paddingTop : ℚ
  paddingBottom : ℚ
  paddingSide : ℚ
  borderColor : ℕ
  shiftX : ℤ
  shiftY : ℤ
  zoomOutFactor : ℚ
  grayscale : Bool
deriving DecidableEq, Repr

/-- The distinct failure conditions of the two validators.  In Python every
one of them raises `ValidationError`; they are distinguished here by the
check that fires (each has its own message text in the source). -/
inductive ValidationFailure where
  | missingParameter
  | invalidDimensions
  | invalidZoomFactor
  | invalidPadding
deriving DecidableEq, Repr

/-- Mirrors `HeadshotProcessor._validate_processing_params`: the validation run by
`process_image` before any crop computation.  In this typed model every
required key is present, so the missing-key loop never fires.  The checks
performed are: positive target dimensions, and `0.5 ≤ zoom_out_factor ≤ 3.0`.
It performs no check on the padding ratios. -/
def validateProcessingParams (p : Params) : Option ValidationFailure :=
  if p.targetWidth ≤ 0 ∨ p.targetHeight ≤ 0 then some .invalidDimensions
  else if ¬ ((1/2 : ℚ) ≤ p.zoomOutFactor ∧ p.zoomOutFactor ≤ 3) then
    some .invalidZoomFactor
  else none

/-- Mirrors `ProcessingParameters.validate` (models/session_state.py): positive
target dimensions, `0.9 ≤ zoom_out_factor ≤ 3.0`, and all three padding
ratios in `[0.0, 2.0]`.  This validator is invoked from the session-state
layer (`apply_preset`, `validate_state`), not on the `process_image` path. -/
def ppValidate (p : Params) : Option ValidationFailure :=
  if p.targetWidth ≤ 0 ∨ p.targetHeight ≤ 0 then some .invalidDimensions
  else if ¬ ((9/10 : ℚ) ≤ p.zoomOutFactor ∧ p.zoomOutFactor ≤ 3) then
    some .invalidZoomFactor
  else if ¬ (0 ≤ p.paddingTop ∧ p.paddingTop ≤ 2 ∧
             0 ≤ p.paddingBottom ∧ p.paddingBottom ≤ 2 ∧
             0 ≤ p.paddingSide ∧ p.paddingSide ≤ 2) then
    some .invalidPadding
  else none

/-- Mirrors `HeadshotProcessor._face_crop` up to (not including) the call to
`_constrain_crop_bounds`: padding in pixels from the face box, zoomed crop
dimensions, and the box centered on the face center plus pixel shifts. -/
def faceCropRaw (x y w h : ℤ) (padTop padBottom padSide zoom : ℚ)
    (shiftX shiftY : ℤ) : CropRect :=
  let paddingTopPx := pyInt ((h : ℚ) * padTop)
  let paddingBottomPx := pyInt ((h : ℚ) * padBottom)
  let paddingSidePx := pyInt ((w : ℚ) * padSide)
  let cropWidth := pyInt (((w + 2 * paddingSidePx : ℤ) : ℚ) * zoom)
  let cropHeight := pyInt (((h + paddingTopPx + paddingBottomPx : ℤ) : ℚ) * zoom)
  let cropLeft := x + w.fdiv 2 - cropWidth.fdiv 2 + shiftX
  let cropRight := cropLeft + cropWidth
  let cropTop := y + h.fdiv 2 - cropHeight.fdiv 2 + shiftY
  let cropBottom := cropTop + cropHeight
  ⟨cropLeft, cropTop, cropRight, cropBottom⟩

/-- The aspect-correction step at the end of `_face_crop` (after
`_constrain_crop_bounds`): recompute the actual crop width/height, then
grow the too-short dimension to match the target ratio, recentering and
re-clamping only that dimension.  Python computes
`crop_width / crop_height` in float arithmetic; when the constrained crop
height is `0` this raises `ZeroDivisionError`, modelled as `none`. -/
def faceAspect (left top right bottom imgW imgH targetW targetH : ℤ) :
    Option CropRect :=
  let cropWidth := right - left
  let cropHeight := bottom - top
  if cropHeight = 0 then none
  else
    let targetRatioQ : ℚ := (targetW : ℚ) / (targetH : ℚ)
    if (cropWidth : ℚ) / (cropHeight : ℚ) > targetRatioQ then
      -- crop is too wide, adjust height
      let newHeight := pyInt ((cropWidth : ℚ) / targetRatioQ)
      let top2 := max 0 (top - (newHeight - cropHeight).fdiv 2)
      let bottom2 := min imgH (top2 + newHeight)
      some ⟨left, top2, right, bottom2⟩
    else
      -- crop is too tall, adjust width
      let newWidth := pyInt ((cropHeight : ℚ) * targetRatioQ)
      let left2 := max 0 (left - (newWidth - cropWidth).fdiv 2)
      let right2 := min imgW (left2 + newWidth)
      some ⟨left2, top, right2, bottom⟩

/-- Mirrors `HeadshotProcessor._face_crop`: raw face-centered box, bounds
constraining, then aspect correction.  (`image.crop` takes this rectangle.) -/
def faceCrop (f : FaceBox) (padTop padBottom padSide zoom : ℚ)
    (shiftX shiftY imgW imgH targetW targetH : ℤ) : Option CropRect :=
  let c0 := faceCropRaw f.x f.y f.w f.h padTop padBottom padSide zoom shiftX shiftY
  let c1 := constrainCropBounds c0.left c0.top c0.right c0.bottom imgW imgH
  faceAspect c1.left c1.top c1.right c1.bottom imgW imgH targetW targetH

/-- The crop-planning dispatch in `process_image`: center crop when no face
was detected, face crop on the first detected face otherwise. -/
def planCrop (faceOpt : Option FaceBox) (p : Params) (imgW imgH : ℤ) :
    Option CropRect :=
  match faceOpt with
  | none =>
      some (centerCrop imgW imgH p.targetWidth p.targetHeight
        p.zoomOutFactor p.shiftX p.shiftY)
  | some f =>
      faceCrop f p.paddingTop p.paddingBottom p.paddingSide p.zoomOutFactor
        p.shiftX p.shiftY imgW imgH p.targetWidth p.targetHeight

/-- Errors surfaced by the planning prefix of `process_image`: a
`ValidationError` from `_validate_processing_params`, or the
`ZeroDivisionError` inside `_face_crop` (re-raised by the catch-all as a
generic `ImageProcessingError`). -/
inductive ProcErrorKind where
  | invalidParams (v : ValidationFailure)
  | divisionByZero
deriving DecidableEq, Repr

/-- The validation-then-plan prefix of `HeadshotProcessor.process_image`:
`_validate_processing_params` runs before any crop computation; if it
passes, the crop rectangle is planned on the appropriate branch.  There is
no further check on the planned rectangle before `image.crop` is called. -/
def processPlan (faceOpt : Option FaceBox) (p : Params) (imgW imgH : ℤ) :
    Except ProcErrorKind CropRect :=
  match validateProcessingParams p with
  | some v => .error (.invalidParams v)
  | none =>
    match planCrop faceOpt p imgW imgH with
    | some c => .ok c
    | none => .error .divisionByZero

/-- The clamp-freeness condition of the aspect-correction step: the
`max 0` / `min bound` re-clamps of `_face_crop`'s aspect adjustment leave
their arguments unchanged (the image is large enough to hold the
aspect-corrected crop at its recentered position). -/
def aspectClampFree (left top right bottom imgW imgH targetW targetH : ℤ) :
    Bool :=
  let cropWidth := right - left
  let cropHeight := bottom - top
  let targetRatioQ : ℚ := (targetW : ℚ) / (targetH : ℚ)
  if (cropWidth : ℚ) / (cropHeight : ℚ) > targetRatioQ then
    let newHeight := pyInt ((cropWidth : ℚ) / targetRatioQ)
    let top2 := top - (newHeight - cropHeight).fdiv 2
    decide (0 ≤ top2 ∧ top2 + newHeight ≤ imgH)
  else
    let newWidth := pyInt ((cropHeight : ℚ) * targetRatioQ)
    let left2 := left - (newWidth - cropWidth).fdiv 2
    decide (0 ≤ left2 ∧ left2 + newWidth ≤ imgW)

/-- The no-clamping-triggered condition for the edge-correction rule: the box is a
fixed point of `_constrain_crop_bounds` (it already lies inside the
image, so neither the shifts nor the hard clamp move it). -/
def ConstrainFixes (c : CropRect) (imgW imgH : ℤ) : Prop :=
  constrainCropBounds c.left c.top c.right c.bottom imgW imgH = c

instance (c : CropRect) (imgW imgH : ℤ) : Decidable (ConstrainFixes c imgW imgH) := by
  unfold ConstrainFixes
  infer_instance

/-- Python's `min(floor(q), ceil(q), key=key)` then `max(·, 1)`, the
`round_aspect` helper inside PIL's `Image.thumbnail`: of floor and ceiling,
pick the one with the smaller key (floor on ties), with a minimum of 1. -/
def roundAspect (q : ℚ) (key : ℤ → ℚ) : ℤ :=
  max (if key ⌊q⌋ ≤ key ⌈q⌉ then ⌊q⌋ else ⌈q⌉) 1

/-- The size computed by PIL's `Image.thumbnail(size)` (which then resizes
the receiver in place): a no-op when the image already fits inside `size`;
otherwise the aspect-preserving fit, never upscaling.  Modelled on
Pillow's implementation. -/
def thumbnailSize (w h targetW targetH : ℤ) : ℤ × ℤ :=
  if targetW ≥ w ∧ targetH ≥ h then (w, h)
  else
    let aspect : ℚ := (w : ℚ) / (h : ℚ)
    if (targetW : ℚ) / (targetH : ℚ) ≥ aspect then
      (roundAspect ((targetH : ℚ) * aspect)
        (fun n => |aspect - (n : ℚ) / (targetH : ℚ)|), targetH)
    else
      (targetW, roundAspect ((targetW : ℚ) / aspect)
        (fun n => if n = 0 then 0 else |aspect - (targetW : ℚ) / (n : ℚ)|))

/-- Mirrors `ImageOps.expand(image, border=(bx, by), fill)`: adds `bx` columns on
the left and right and `by` rows on the top and bottom. -/
def expandSize (w h borderX borderY : ℤ) : ℤ × ℤ :=
  (w + 2 * borderX, h + 2 * borderY)

/-- Mirrors `Image.resize(target)`: returns a fresh image of exactly the requested
size, whatever the current size is. -/
def resizeSize (current target : ℤ × ℤ) : ℤ × ℤ := target

/-- Mirrors `HeadshotProcessor._finalize_image` at the size level: thumbnail the
cropped image into the target box, pad with a symmetric border (integer
halves of the deficit), then force-resize to the exact target size. -/
def finalizeImageSize (croppedW croppedH targetW targetH : ℤ) : ℤ × ℤ :=
  let thumbed := thumbnailSize croppedW croppedH targetW targetH
  let border := ((targetW - thumbed.1).fdiv 2, (targetH - thumbed.2).fdiv 2)
  let expanded := expandSize thumbed.1 thumbed.2 border.1 border.2
  resizeSize expanded (targetW, targetH)

/-- The size of the `cropped` argument itself after `_finalize_image`
returns: `Image.thumbnail` resizes its receiver in place, while
`ImageOps.expand` and `Image.resize` allocate new images, so the caller's
`cropped` image ends at its thumbnailed size. -/
def finalizeCroppedSizeAfter (croppedW croppedH targetW targetH : ℤ) :
    ℤ × ℤ :=
  thumbnailSize croppedW croppedH targetW targetH

/-- One RGB pixel; each channel is a byte value `0..255`. -/
structure RGB where
  r : ℕ
  g : ℕ
  b : ℕ
deriving DecidableEq, Repr

/-- Pillow's RGB→L luma (the ITU-R 601-2 transform
`L = R * 299/1000 + G * 587/1000 + B * 114/1000`) as implemented in fixed
point by libImaging: `L = (19595 R + 38470 G + 7471 B) >> 16`; the
coefficients sum to exactly `2^16`. -/
def lumaOf (p : RGB) : ℕ :=
  (19595 * p.r + 38470 * p.g + 7471 * p.b) / 65536

/-- The per-pixel effect of `ImageOps.grayscale` followed by
`convert("RGB")`: the luma replicated into all three channels. -/
def grayPixel (p : RGB) : RGB :=
  ⟨lumaOf p, lumaOf p, lumaOf p⟩

/-- Mirrors `HeadshotProcessor._convert_to_grayscale`: convert to single-channel
luminance, then back to a 3-channel RGB image.  The image is its pixel
list (size is unchanged by both conversions). -/
def convertToGrayscale (img : List RGB) : List RGB :=
  img.map grayPixel

/-- Scenario-1 parameters: target 400×500, paddings 0.2/0.5/0.1,
zoom 1.0, no shift. -/
def paramsScenario1 : Params := ⟨400, 500, 2/10, 5/10, 1/10, 0, 0, 0, 1, false⟩

/-- A parameter set with an extreme target aspect (1×9999) that every
validator accepts. -/
def paramsThinTarget : Params := ⟨1, 9999, 2/10, 5/10, 1/10, 0, 0, 0, 1, false⟩

/-- A second extreme-aspect parameter set (target 1×10000), also accepted
by every validator. -/
def paramsThinTarget2 : Params :=
  ⟨1, 10000, 2/10, 5/10, 1/10, 0, 0, 0, 1, false⟩

/-- A parameter set whose `padding_top_ratio` is negative (−1.0); all other
fields are the scenario-1 values. -/
def paramsNegPadding : Params := ⟨400, 500, -1, 5/10, 1/10, 0, 0, 0, 1, false⟩

/-- A parameter set whose `padding_top_ratio` exceeds the maximum (3.0);
all other fields are the scenario-1 values. -/
def paramsBigPadding : Params := ⟨400, 500, 3, 5/10, 1/10, 0, 0, 0, 1, false⟩

/-- Python `//` by 2 agrees with Euclidean division by 2. -/
theorem fdiv_two (a : ℤ) : a.fdiv 2 = a / 2 :=
  Int.fdiv_eq_ediv a (by norm_num)

/-- Shared bounds lemma: `_constrain_crop_bounds` of a non-inverted box
lands inside `[0, imgW] × [0, imgH]`, still non-inverted. -/
theorem constrain_le_aux (l t r b imgW imgH : ℤ)
    (hlr : l ≤ r) (htb : t ≤ b) (hW : 0 ≤ imgW) (hH : 0 ≤ imgH) :
    InBoundsLe (constrainCropBounds l t r b imgW imgH) imgW imgH := by
  simp only [constrainCropBounds, InBoundsLe]
  split_ifs <;> refine ⟨?_, ?_, ?_, ?_, ?_, ?_⟩ <;> omega

/-- C10: for every input box with `left ≤ right` and `top ≤ bottom` and
positive image dimensions, `_constrain_crop_bounds` returns a box satisfying
the non-strict invariant `0 ≤ left ≤ right ≤ image_width` and
`0 ≤ top ≤ bottom ≤ image_height` — possibly empty, never inverted or out
of bounds. -/
theorem constrain_inBoundsLe (l t r b imgW imgH : ℤ)
    (hlr : l ≤ r) (htb : t ≤ b) (hW : 0 < imgW) (hH : 0 < imgH) :
    InBoundsLe (constrainCropBounds l t r b imgW imgH) imgW imgH :=
  constrain_le_aux l t r b imgW imgH hlr htb hW.le hH.le

/-- Witness for `constrain_inBoundsLe` at a concrete over-wide box. -/
theorem constrain_inBoundsLe_witness :
    InBoundsLe (constrainCropBounds (-30) 10 170 90 100 100) 100 100 :=
  constrain_inBoundsLe (-30) 10 170 90 100 100 (by decide) (by decide)
    (by decide) (by decide)

/-- C4: the edge-correction rule is width/height-preserving: whenever the
input box has `left ≤ right`, `top ≤ bottom`, width at most `image_width`
and height at most `image_height`, the box returned by
`_constrain_crop_bounds` has exactly the same width and height (the shifts
relocate the box, and the final hard clamp is then inactive). -/
theorem constrain_preserves_size (l t r b imgW imgH : ℤ)
    (hlr : l ≤ r) (htb : t ≤ b) (hw : r - l ≤ imgW) (hh : b - t ≤ imgH) :
    (constrainCropBounds l t r b imgW imgH).right -
      (constrainCropBounds l t r b imgW imgH).left = r - l ∧
    (constrainCropBounds l t r b imgW imgH).bottom -
      (constrainCropBounds l t r b imgW imgH).top = b - t := by
  simp only [constrainCropBounds]
  split_ifs <;> constructor <;> omega

/-- Witness for `constrain_preserves_size`: a box sticking out past the
left and bottom edges keeps its 80×60 size. -/
theorem constrain_preserves_size_witness :
    (constrainCropBounds (-20) 70 60 130 100 100).right -
      (constrainCropBounds (-20) 70 60 130 100 100).left = 80 ∧
    (constrainCropBounds (-20) 70 60 130 100 100).bottom -
      (constrainCropBounds (-20) 70 60 130 100 100).top = 60 :=
  constrain_preserves_size (-20) 70 60 130 100 100 (by decide) (by decide)
    (by decide) (by decide)

/-- The raw center-crop box is never inverted: its width and height are the
truncations of non-negative products. -/
theorem centerCropRaw_le (W H tw th : ℤ) (zoom : ℚ) (sx sy : ℤ)
    (hW : 0 ≤ W) (hH : 0 ≤ H) (htw : 0 < tw) (hth : 0 < th) (hz : 0 ≤ zoom) :
    (centerCropRaw W H tw th zoom sx sy).left ≤
      (centerCropRaw W H tw th zoom sx sy).right ∧
    (centerCropRaw W H tw th zoom sx sy).top ≤
      (centerCropRaw W H tw th zoom sx sy).bottom := by
  have hr : (0 : ℚ) ≤ (tw : ℚ) / (th : ℚ) :=
    div_nonneg (by exact_mod_cast htw.le) (by exact_mod_cast hth.le)
  have hbw : (0 : ℤ) ≤ min W (pyInt ((H : ℚ) * ((tw : ℚ) / (th : ℚ)))) :=
    le_min hW (pyInt_nonneg (mul_nonneg (by exact_mod_cast hH) hr))
  have hbh : (0 : ℤ) ≤ min H (pyInt ((W : ℚ) / ((tw : ℚ) / (th : ℚ)))) :=
    le_min hH (pyInt_nonneg (div_nonneg (by exact_mod_cast hW) hr))
  have hcw : (0 : ℤ) ≤
      pyInt (((min W (pyInt ((H : ℚ) * ((tw : ℚ) / (th : ℚ)))) : ℤ) : ℚ) * zoom) :=
    pyInt_nonneg (mul_nonneg (by exact_mod_cast hbw) hz)
  have hch : (0 : ℤ) ≤
      pyInt (((min H (pyInt ((W : ℚ) / ((tw : ℚ) / (th : ℚ)))) : ℤ) : ℚ) * zoom) :=
    pyInt_nonneg (mul_nonneg (by exact_mod_cast hbh) hz)
  simp only [centerCropRaw]
  omega

/-- The raw face-crop box is never inverted when the face box and the
padding ratios and zoom are non-negative. -/
theorem faceCropRaw_le (x y w h : ℤ) (padTop padBottom padSide zoom : ℚ)
    (sx sy : ℤ) (hw : 0 ≤ w) (hh : 0 ≤ h) (hpt : 0 ≤ padTop)
    (hpb : 0 ≤ padBottom) (hps : 0 ≤ padSide) (hz : 0 ≤ zoom) :
    (faceCropRaw x y w h padTop padBottom padSide zoom sx sy).left ≤
      (faceCropRaw x y w h padTop padBottom padSide zoom sx sy).right ∧
    (faceCropRaw x y w h padTop padBottom padSide zoom sx sy).top ≤
      (faceCropRaw x y w h padTop padBottom padSide zoom sx sy).bottom := by
  have hside : (0 : ℤ) ≤ pyInt ((w : ℚ) * padSide) :=
    pyInt_nonneg (mul_nonneg (by exact_mod_cast hw) hps)
  have htp : (0 : ℤ) ≤ pyInt ((h : ℚ) * padTop) :=
    pyInt_nonneg (mul_nonneg (by exact_mod_cast hh) hpt)
  have hbp : (0 : ℤ) ≤ pyInt ((h : ℚ) * padBottom) :=
    pyInt_nonneg (mul_nonneg (by exact_mod_cast hh) hpb)
  have hcw : (0 : ℤ) ≤ pyInt (((w + 2 * pyInt ((w : ℚ) * padSide) : ℤ) : ℚ) * zoom) :=
    pyInt_nonneg (mul_nonneg (by exact_mod_cast (by omega :
      (0 : ℤ) ≤ w + 2 * pyInt ((w : ℚ) * padSide))) hz)
  have hch : (0 : ℤ) ≤ pyInt
      (((h + pyInt ((h : ℚ) * padTop) + pyInt ((h : ℚ) * padBottom) : ℤ) : ℚ) * zoom) :=
    pyInt_nonneg (mul_nonneg (by exact_mod_cast (by omega :
      (0 : ℤ) ≤ h + pyInt ((h : ℚ) * padTop) + pyInt ((h : ℚ) * padBottom))) hz)
  simp only [faceCropRaw]
  omega

/-- Shared bounds lemma for the aspect-correction step: starting from a box
inside the image, the adjusted box is still inside the image and
non-inverted. -/
theorem faceAspect_le_aux (l t r b imgW imgH tw th : ℤ) (c : CropRect)
    (hb : InBoundsLe ⟨l, t, r, b⟩ imgW imgH) (htw : 0 < tw) (hth : 0 < th)
    (hc : faceAspect l t r b imgW imgH tw th = some c) :
    InBoundsLe c imgW imgH := by
  simp only [InBoundsLe] at hb
  obtain ⟨h1, h2, h3, h4, h5, h6⟩ := hb
  have hratio : (0 : ℚ) < (tw : ℚ) / (th : ℚ) :=
    div_pos (by exact_mod_cast htw) (by exact_mod_cast hth)
  simp only [faceAspect] at hc
  by_cases hch0 : b - t = 0
  · rw [if_pos hch0] at hc
    exact absurd hc (by simp)
  · rw [if_neg hch0] at hc
    have hchpos : (0 : ℤ) < b - t := by omega
    have hchq : (0 : ℚ) < ((b - t : ℤ) : ℚ) := by exact_mod_cast hchpos
    have hcwq : (0 : ℚ) ≤ ((r - l : ℤ) : ℚ) := by
      exact_mod_cast (by omega : (0 : ℤ) ≤ r - l)
    by_cases hwide :
        ((r - l : ℤ) : ℚ) / ((b - t : ℤ) : ℚ) > (tw : ℚ) / (th : ℚ)
    · rw [if_pos hwide] at hc
      simp only [Option.some.injEq] at hc
      subst hc
      set nh := pyInt (((r - l : ℤ) : ℚ) / ((tw : ℚ) / (th : ℚ))) with hnh
      have hnh0 : 0 ≤ nh := pyInt_nonneg (div_nonneg hcwq hratio.le)
      have hnhch : b - t ≤ nh := by
        rw [hnh, pyInt_eq_floor (div_nonneg hcwq hratio.le)]
        refine Int.le_floor.mpr ?_
        rw [le_div_iff₀ hratio]
        have hm := (lt_div_iff₀ hchq).mp hwide
        have hco : ((b - t : ℤ) : ℚ) * ((tw : ℚ) / (th : ℚ)) =
            (tw : ℚ) / (th : ℚ) * ((b - t : ℤ) : ℚ) := mul_comm _ _
        linarith
      have hfd : 0 ≤ (nh - (b - t)).fdiv 2 ∧ (nh - (b - t)).fdiv 2 ≤ nh := by
        rw [fdiv_two]
        omega
      simp only [InBoundsLe]
      refine ⟨?_, ?_, ?_, ?_, ?_, ?_⟩ <;> omega
    · rw [if_neg hwide] at hc
      simp only [Option.some.injEq] at hc
      subst hc
      set nw := pyInt (((b - t : ℤ) : ℚ) * ((tw : ℚ) / (th : ℚ))) with hnw
      have hnw0 : 0 ≤ nw := pyInt_nonneg (mul_nonneg hchq.le hratio.le)
      have hnwcw : r - l ≤ nw := by
        rw [hnw, pyInt_eq_floor (mul_nonneg hchq.le hratio.le)]
        refine Int.le_floor.mpr ?_
        push_neg at hwide
        have hm := (div_le_iff₀ hchq).mp hwide
        have hco : ((b - t : ℤ) : ℚ) * ((tw : ℚ) / (th : ℚ)) =
            (tw : ℚ) / (th : ℚ) * ((b - t : ℤ) : ℚ) := mul_comm _ _
        linarith
      have hfd : 0 ≤ (nw - (r - l)).fdiv 2 ∧ (nw - (r - l)).fdiv 2 ≤ nw := by
        rw [fdiv_two]
        omega
      simp only [InBoundsLe]
      refine ⟨?_, ?_, ?_, ?_, ?_, ?_⟩ <;> omega

/-- Shared bounds lemma for the whole planner: on either branch, a planned
crop rectangle lies inside the image, non-inverted. -/
theorem planCrop_le_aux (faceOpt : Option FaceBox) (p : Params) (W H : ℤ)
    (c : CropRect) (hW : 0 < W) (hH : 0 < H)
    (hface : ∀ f, faceOpt = some f → 0 ≤ f.w ∧ 0 ≤ f.h)
    (htw : 0 < p.targetWidth) (hth : 0 < p.targetHeight)
    (hz : 0 ≤ p.zoomOutFactor) (hpt : 0 ≤ p.paddingTop)
    (hpb : 0 ≤ p.paddingBottom) (hps : 0 ≤ p.paddingSide)
    (hc : planCrop faceOpt p W H = some c) :
    InBoundsLe c W H := by
  cases faceOpt with
  | none =>
    simp only [planCrop, Option.some.injEq] at hc
    subst hc
    unfold centerCrop
    have hraw := centerCropRaw_le W H p.targetWidth p.targetHeight
      p.zoomOutFactor p.shiftX p.shiftY hW.le hH.le htw hth hz
    exact constrain_le_aux _ _ _ _ _ _ hraw.1 hraw.2 hW.le hH.le
  | some f =>
    obtain ⟨hfw, hfh⟩ := hface f rfl
    simp only [planCrop] at hc
    unfold faceCrop at hc
    have hraw := faceCropRaw_le f.x f.y f.w f.h p.paddingTop p.paddingBottom
      p.paddingSide p.zoomOutFactor p.shiftX p.shiftY hfw hfh hpt hpb hps hz
    have hcon := constrain_le_aux
      (faceCropRaw f.x f.y f.w f.h p.paddingTop p.paddingBottom p.paddingSide
        p.zoomOutFactor p.shiftX p.shiftY).left
      (faceCropRaw f.x f.y f.w f.h p.paddingTop p.paddingBottom p.paddingSide
        p.zoomOutFactor p.shiftX p.shiftY).top
      (faceCropRaw f.x f.y f.w f.h p.paddingTop p.paddingBottom p.paddingSide
        p.zoomOutFactor p.shiftX p.shiftY).right
      (faceCropRaw f.x f.y f.w f.h p.paddingTop p.paddingBottom p.paddingSide
        p.zoomOutFactor p.shiftX p.shiftY).bottom
      W H hraw.1 hraw.2 hW.le hH.le
    exact faceAspect_le_aux _ _ _ _ _ _ _ _ c hcon htw hth hc

/-- The facts recorded by a passing run of `ProcessingParameters.validate`. -/
theorem ppValidate_none_facts (p : Params) (hv : ppValidate p = none) :
    0 < p.targetWidth ∧ 0 < p.targetHeight ∧
    (9/10 : ℚ) ≤ p.zoomOutFactor ∧ p.zoomOutFactor ≤ 3 ∧
    0 ≤ p.paddingTop ∧ p.paddingTop ≤ 2 ∧
    0 ≤ p.paddingBottom ∧ p.paddingBottom ≤ 2 ∧
    0 ≤ p.paddingSide ∧ p.paddingSide ≤ 2 := by
  simp only [ppValidate] at hv
  split_ifs at hv with h1 h2 h3
  all_goals simp at hv
  push_neg at h1
  obtain ⟨hz1, hz2⟩ : (9/10 : ℚ) ≤ p.zoomOutFactor ∧ p.zoomOutFactor ≤ 3 := by
    tauto
  obtain ⟨ha1, ha2, ha3, ha4, ha5, ha6⟩ :
      0 ≤ p.paddingTop ∧ p.paddingTop ≤ 2 ∧
      0 ≤ p.paddingBottom ∧ p.paddingBottom ≤ 2 ∧
      0 ≤ p.paddingSide ∧ p.paddingSide ≤ 2 := by
    tauto
  exact ⟨by omega, by omega, hz1, hz2, ha1, ha2, ha3, ha4, ha5, ha6⟩

/-- C2 (amended): for all valid inputs (positive image dimensions,
parameters accepted by `ProcessingParameters.validate`, face box with
positive width/height when present), every crop rectangle returned by the
planner — either branch, after clamping and aspect correction — satisfies
the NON-strict invariant `0 ≤ left ≤ right ≤ image_width` and
`0 ≤ top ≤ bottom ≤ image_height`.  The strict version claimed by the spec
fails: see the counterexample, where the crop width collapses to zero. -/
theorem planCrop_inBoundsLe (faceOpt : Option FaceBox) (p : Params)
    (W H : ℤ) (c : CropRect) (hW : 0 < W) (hH : 0 < H)
    (hface : ∀ f, faceOpt = some f → 0 < f.w ∧ 0 < f.h)
    (hv : ppValidate p = none)
    (hc : planCrop faceOpt p W H = some c) :
    InBoundsLe c W H := by
  obtain ⟨htw, hth, hz1, hz2, hpt, hpt2, hpb, hpb2, hps, hps2⟩ :=
    ppValidate_none_facts p hv
  exact planCrop_le_aux faceOpt p W H c hW hH
    (fun f hf => ⟨(hface f hf).1.le, (hface f hf).2.le⟩)
    htw hth (by linarith) hpt hpb hps hc

/-- Witness for `planCrop_inBoundsLe`: the scenario-1 crop of a 1000×1000
image is in bounds. -/
theorem planCrop_inBoundsLe_witness : InBoundsLe ⟨100, 0, 900, 1000⟩ 1000 1000 :=
  planCrop_inBoundsLe none paramsScenario1 1000 1000 ⟨100, 0, 900, 1000⟩
    (by decide) (by decide) (fun f hf => nomatch hf)
    (by norm_num [ppValidate, paramsScenario1])
    (by norm_num [planCrop, centerCrop, centerCropRaw, constrainCropBounds,
      pyInt, paramsScenario1, fdiv_two])

/-- C2 counterexample: with the fully validated parameter set
`paramsThinTarget` (target 1×9999, zoom 1.0) on a positive 100×100 image,
the center-crop branch yields the rectangle `(50, 0, 50, 100)`, whose
width is zero — the strict invariant `left < right` fails. -/
theorem planCrop_strict_counterexample :
    ppValidate paramsThinTarget = none ∧
    planCrop none paramsThinTarget 100 100 = some ⟨50, 0, 50, 100⟩ ∧
    ¬ InBoundsLt ⟨50, 0, 50, 100⟩ 100 100 :=
  ⟨by norm_num [ppValidate, paramsThinTarget],
   by norm_num [planCrop, centerCrop, centerCropRaw, constrainCropBounds,
     pyInt, paramsThinTarget, fdiv_two],
   by decide⟩

/-- C5 (amended): the pipeline performs no degenerate-crop detection.  The
clamping rules do guarantee that a planned crop rectangle is never
inverted (`left ≤ right` and `top ≤ bottom`, width and height ≥ 0), but a
rectangle of zero width or height is returned as an ordinary result and
handed to `image.crop`, not surfaced as an error. -/
theorem planCrop_never_inverted (faceOpt : Option FaceBox) (p : Params)
    (W H : ℤ) (c : CropRect) (hW : 0 < W) (hH : 0 < H)
    (hface : ∀ f, faceOpt = some f → 0 < f.w ∧ 0 < f.h)
    (hv : ppValidate p = none)
    (hc : planCrop faceOpt p W H = some c) :
    c.left ≤ c.right ∧ c.top ≤ c.bottom := by
  obtain ⟨htw, hth, hz1, hz2, hpt, hpt2, hpb, hpb2, hps, hps2⟩ :=
    ppValidate_none_facts p hv
  have h := planCrop_le_aux faceOpt p W H c hW hH
    (fun f hf => ⟨(hface f hf).1.le, (hface f hf).2.le⟩)
    htw hth (by linarith) hpt hpb hps hc
  exact ⟨h.2.1, h.2.2.2.2.1⟩

/-- Witness for `planCrop_never_inverted` at the scenario-1 crop. -/
theorem planCrop_never_inverted_witness :
    (100 : ℤ) ≤ 900 ∧ (0 : ℤ) ≤ 1000 :=
  planCrop_never_inverted none paramsScenario1 1000 1000 ⟨100, 0, 900, 1000⟩
    (by decide) (by decide) (fun f hf => nomatch hf)
    (by norm_num [ppValidate, paramsScenario1])
    (by norm_num [planCrop, centerCrop, centerCropRaw, constrainCropBounds,
      pyInt, paramsScenario1, fdiv_two])

/-- C5 counterexample: with the fully validated parameter set
`paramsThinTarget2` (target 1×10000, zoom 1.0) on a 100×100 image, the
planned crop has zero width (`left = right = 50`), yet `process_image`
raises no error: validation passes and the degenerate rectangle is
returned as an ordinary `ok` result, flowing on into `image.crop`. -/
theorem processPlan_degenerate_counterexample :
    processPlan none paramsThinTarget2 100 100 = .ok ⟨50, 0, 50, 100⟩ ∧
    (⟨50, 0, 50, 100⟩ : CropRect).right - (⟨50, 0, 50, 100⟩ : CropRect).left = 0 :=
  ⟨by norm_num [processPlan, validateProcessingParams, planCrop, centerCrop,
     centerCropRaw, constrainCropBounds, pyInt, paramsThinTarget2, fdiv_two],
   rfl⟩

/-- C3: whenever the image is large enough that the aspect-correction
re-clamps do not bind (`aspectClampFree`), the crop rectangle produced by
the aspect-correction step of `_face_crop` has width/height ratio equal to
`target_width / target_height` within one pixel of rounding error: scaling
the mismatch into pixel units, `|width·target_height − height·target_width|`
is less than `max target_width target_height`, i.e. adjusting the corrected
dimension by less than one pixel would give the exact target ratio. -/
theorem faceAspect_ratio_within_one_pixel (l t r b imgW imgH tw th : ℤ)
    (c : CropRect) (htw : 0 < tw) (hth : 0 < th)
    (hlr : l ≤ r) (htb : t < b)
    (hfree : aspectClampFree l t r b imgW imgH tw th = true)
    (hc : faceAspect l t r b imgW imgH tw th = some c) :
    |(c.right - c.left) * th - (c.bottom - c.top) * tw| < max tw th := by
  have htwq : (0 : ℚ) < (tw : ℚ) := by exact_mod_cast htw
  have hthq : (0 : ℚ) < (th : ℚ) := by exact_mod_cast hth
  have hratio : (0 : ℚ) < (tw : ℚ) / (th : ℚ) := div_pos htwq hthq
  have hchq : (0 : ℚ) < ((b - t : ℤ) : ℚ) := by
    exact_mod_cast (by omega : (0 : ℤ) < b - t)
  have hcwq : (0 : ℚ) ≤ ((r - l : ℤ) : ℚ) := by
    exact_mod_cast (by omega : (0 : ℤ) ≤ r - l)
  simp only [faceAspect] at hc
  rw [if_neg (by omega : ¬(b - t = 0))] at hc
  simp only [aspectClampFree] at hfree
  by_cases hwide : ((r - l : ℤ) : ℚ) / ((b - t : ℤ) : ℚ) > (tw : ℚ) / (th : ℚ)
  · rw [if_pos hwide] at hc
    rw [if_pos hwide, decide_eq_true_eq] at hfree
    obtain ⟨hf1, hf2⟩ := hfree
    simp only [Option.some.injEq] at hc
    subst hc
    set nh := pyInt (((r - l : ℤ) : ℚ) / ((tw : ℚ) / (th : ℚ))) with hnh
    have hmax : max 0 (t - (nh - (b - t)).fdiv 2) = t - (nh - (b - t)).fdiv 2 :=
      max_eq_right hf1
    have hnn : (0 : ℚ) ≤ ((r - l : ℤ) : ℚ) / ((tw : ℚ) / (th : ℚ)) :=
      div_nonneg hcwq hratio.le
    have hfloor : nh = ⌊((r - l : ℤ) : ℚ) / ((tw : ℚ) / (th : ℚ))⌋ :=
      hnh.trans (pyInt_eq_floor hnn)
    have hdd : ((r - l : ℤ) : ℚ) / ((tw : ℚ) / (th : ℚ)) =
        ((r - l : ℤ) : ℚ) * (th : ℚ) / (tw : ℚ) := div_div_eq_mul_div _ _ _
    have h1 : (nh : ℚ) ≤ ((r - l : ℤ) : ℚ) * (th : ℚ) / (tw : ℚ) := by
      rw [← hdd, hfloor]
      exact Int.floor_le _
    have h2 : ((r - l : ℤ) : ℚ) * (th : ℚ) / (tw : ℚ) < (nh : ℚ) + 1 := by
      rw [← hdd, hfloor]
      exact Int.lt_floor_add_one _
    have hz1 : nh * tw ≤ (r - l) * th := by
      have := (le_div_iff₀ htwq).mp h1
      exact_mod_cast this
    have hz2 : (r - l) * th < nh * tw + tw := by
      have h3 := (div_lt_iff₀ htwq).mp h2
      have h4 : ((nh : ℚ) + 1) * (tw : ℚ) = (nh : ℚ) * (tw : ℚ) + (tw : ℚ) := by
        ring
      rw [h4] at h3
      exact_mod_cast h3
    simp only [hmax]
    rw [min_eq_right (by omega : t - (nh - (b - t)).fdiv 2 + nh ≤ imgH)]
    have hng : t - (nh - (b - t)).fdiv 2 + nh - (t - (nh - (b - t)).fdiv 2) = nh := by
      ring
    rw [hng, abs_of_nonneg (by omega)]
    omega
  · rw [if_neg hwide] at hc
    rw [if_neg hwide, decide_eq_true_eq] at hfree
    obtain ⟨hf1, hf2⟩ := hfree
    simp only [Option.some.injEq] at hc
    subst hc
    set nw := pyInt (((b - t : ℤ) : ℚ) * ((tw : ℚ) / (th : ℚ))) with hnw
    have hmax : max 0 (l - (nw - (r - l)).fdiv 2) = l - (nw - (r - l)).fdiv 2 :=
      max_eq_right hf1
    have hnn : (0 : ℚ) ≤ ((b - t : ℤ) : ℚ) * ((tw : ℚ) / (th : ℚ)) :=
      mul_nonneg hchq.le hratio.le
    have hfloor : nw = ⌊((b - t : ℤ) : ℚ) * ((tw : ℚ) / (th : ℚ))⌋ :=
      hnw.trans (pyInt_eq_floor hnn)
    have hdd : ((b - t : ℤ) : ℚ) * ((tw : ℚ) / (th : ℚ)) =
        ((b - t : ℤ) : ℚ) * (tw : ℚ) / (th : ℚ) := (mul_div_assoc _ _ _).symm
    have h1 : (nw : ℚ) ≤ ((b - t : ℤ) : ℚ) * (tw : ℚ) / (th : ℚ) := by
      rw [← hdd, hfloor]
      exact Int.floor_le _
    have h2 : ((b - t : ℤ) : ℚ) * (tw : ℚ) / (th : ℚ) < (nw : ℚ) + 1 := by
      rw [← hdd, hfloor]
      exact Int.lt_floor_add_one _
    have hz1 : nw * th ≤ (b - t) * tw := by
      have := (le_div_iff₀ hthq).mp h1
      exact_mod_cast this
    have hz2 : (b - t) * tw < nw * th + th := by
      have h3 := (div_lt_iff₀ hthq).mp h2
      have h4 : ((nw : ℚ) + 1) * (th : ℚ) = (nw : ℚ) * (th : ℚ) + (th : ℚ) := by
        ring
      rw [h4] at h3
      exact_mod_cast h3
    simp only [hmax]
    rw [min_eq_right (by omega : l - (nw - (r - l)).fdiv 2 + nw ≤ imgW)]
    have hng : l - (nw - (r - l)).fdiv 2 + nw - (l - (nw - (r - l)).fdiv 2) = nw := by
      ring
    rw [hng, abs_of_nonpos (by omega)]
    omega

/-- Witness for `faceAspect_ratio_within_one_pixel`: the scenario-2 box
(face (400,300,200,250), paddings 0.2/0.5/0.1, zoom 1.1) constrained in a
1000×1000 image is (368,192,632,659); aspect correction to target 400×500
gives (314,192,687,659), i.e. 373×467, and |373·500 − 467·400| = 300 < 500. -/
theorem faceAspect_ratio_within_one_pixel_witness :
    |((687 : ℤ) - 314) * 500 - ((659 : ℤ) - 192) * 400| < max 400 500 :=
  faceAspect_ratio_within_one_pixel 368 192 632 659 1000 1000 400 500
    ⟨314, 192, 687, 659⟩ (by decide) (by decide) (by decide) (by decide)
    (by norm_num [aspectClampFree, pyInt, fdiv_two])
    (by norm_num [faceAspect, pyInt, fdiv_two])

/-- Translating the raw center-crop box horizontally: adding `d` to
`shift_x` adds `d` to `left` and `right` and nothing else. -/
theorem centerCropRaw_shift_x (W H tw th : ℤ) (zoom : ℚ) (sx sy d : ℤ) :
    centerCropRaw W H tw th zoom (sx + d) sy =
      ⟨(centerCropRaw W H tw th zoom sx sy).left + d,
       (centerCropRaw W H tw th zoom sx sy).top,
       (centerCropRaw W H tw th zoom sx sy).right + d,
       (centerCropRaw W H tw th zoom sx sy).bottom⟩ := by
  simp only [centerCropRaw, CropRect.mk.injEq]
  refine ⟨?_, ?_, ?_, ?_⟩ <;> ring

/-- Translating the raw center-crop box vertically. -/
theorem centerCropRaw_shift_y (W H tw th : ℤ) (zoom : ℚ) (sx sy e : ℤ) :
    centerCropRaw W H tw th zoom sx (sy + e) =
      ⟨(centerCropRaw W H tw th zoom sx sy).left,
       (centerCropRaw W H tw th zoom sx sy).top + e,
       (centerCropRaw W H tw th zoom sx sy).right,
       (centerCropRaw W H tw th zoom sx sy).bottom + e⟩ := by
  simp only [centerCropRaw, CropRect.mk.injEq]
  refine ⟨?_, ?_, ?_, ?_⟩ <;> ring

/-- Translating the raw face-crop box horizontally. -/
theorem faceCropRaw_shift_x (x y w h : ℤ) (pt pb ps zoom : ℚ) (sx sy d : ℤ) :
    faceCropRaw x y w h pt pb ps zoom (sx + d) sy =
      ⟨(faceCropRaw x y w h pt pb ps zoom sx sy).left + d,
       (faceCropRaw x y w h pt pb ps zoom sx sy).top,
       (faceCropRaw x y w h pt pb ps zoom sx sy).right + d,
       (faceCropRaw x y w h pt pb ps zoom sx sy).bottom⟩ := by
  simp only [faceCropRaw, CropRect.mk.injEq]
  refine ⟨?_, ?_, ?_, ?_⟩ <;> ring

/-- Translating the raw face-crop box vertically. -/
theorem faceCropRaw_shift_y (x y w h : ℤ) (pt pb ps zoom : ℚ) (sx sy e : ℤ) :
    faceCropRaw x y w h pt pb ps zoom sx (sy + e) =
      ⟨(faceCropRaw x y w h pt pb ps zoom sx sy).left,
       (faceCropRaw x y w h pt pb ps zoom sx sy).top + e,
       (faceCropRaw x y w h pt pb ps zoom sx sy).right,
       (faceCropRaw x y w h pt pb ps zoom sx sy).bottom + e⟩ := by
  simp only [faceCropRaw, CropRect.mk.injEq]
  refine ⟨?_, ?_, ?_, ?_⟩ <;> ring

/-- The aspect-correction step commutes with a horizontal translation when
its re-clamps bind on neither box. -/
theorem faceAspect_shift_x (l t r b imgW imgH tw th d : ℤ) (c1 c2 : CropRect)
    (hfree1 : aspectClampFree l t r b imgW imgH tw th = true)
    (hfree2 : aspectClampFree (l + d) t (r + d) b imgW imgH tw th = true)
    (hc1 : faceAspect l t r b imgW imgH tw th = some c1)
    (hc2 : faceAspect (l + d) t (r + d) b imgW imgH tw th = some c2) :
    c2.left = c1.left + d ∧ c2.right = c1.right + d ∧
    c2.top = c1.top ∧ c2.bottom = c1.bottom := by
  have hred : r + d - (l + d) = r - l := by ring
  simp only [faceAspect] at hc1 hc2
  simp only [aspectClampFree] at hfree1 hfree2
  rw [hred] at hc2 hfree2
  by_cases hch0 : b - t = 0
  · rw [if_pos hch0] at hc1
    exact absurd hc1 (by simp)
  · rw [if_neg hch0] at hc1 hc2
    by_cases hwide :
        ((r - l : ℤ) : ℚ) / ((b - t : ℤ) : ℚ) > (tw : ℚ) / (th : ℚ)
    · rw [if_pos hwide] at hc1 hc2
      simp only [Option.some.injEq] at hc1 hc2
      subst hc1
      subst hc2
      exact ⟨rfl, rfl, rfl, rfl⟩
    · rw [if_neg hwide] at hc1 hc2
      rw [if_neg hwide, decide_eq_true_eq] at hfree1 hfree2
      simp only [Option.some.injEq] at hc1 hc2
      subst hc1
      subst hc2
      obtain ⟨h11, h12⟩ := hfree1
      obtain ⟨h21, h22⟩ := hfree2
      dsimp only
      rw [max_eq_right h11, max_eq_right h21,
        min_eq_right (by omega), min_eq_right (by omega)]
      omega

/-- The aspect-correction step commutes with a vertical translation when
its re-clamps bind on neither box. -/
theorem faceAspect_shift_y (l t r b imgW imgH tw th e : ℤ) (c1 c2 : CropRect)
    (hfree1 : aspectClampFree l t r b imgW imgH tw th = true)
    (hfree2 : aspectClampFree l (t + e) r (b + e) imgW imgH tw th = true)
    (hc1 : faceAspect l t r b imgW imgH tw th = some c1)
    (hc2 : faceAspect l (t + e) r (b + e) imgW imgH tw th = some c2) :
    c2.top = c1.top + e ∧ c2.bottom = c1.bottom + e ∧
    c2.left = c1.left ∧ c2.right = c1.right := by
  have hred : b + e - (t + e) = b - t := by ring
  simp only [faceAspect] at hc1 hc2
  simp only [aspectClampFree] at hfree1 hfree2
  rw [hred] at hc2 hfree2
  by_cases hch0 : b - t = 0
  · rw [if_pos hch0] at hc1
    exact absurd hc1 (by simp)
  · rw [if_neg hch0] at hc1 hc2
    by_cases hwide :
        ((r - l : ℤ) : ℚ) / ((b - t : ℤ) : ℚ) > (tw : ℚ) / (th : ℚ)
    · rw [if_pos hwide] at hc1 hc2
      rw [if_pos hwide, decide_eq_true_eq] at hfree1 hfree2
      simp only [Option.some.injEq] at hc1 hc2
      subst hc1
      subst hc2
      obtain ⟨h11, h12⟩ := hfree1
      obtain ⟨h21, h22⟩ := hfree2
      dsimp only
      rw [max_eq_right h11, max_eq_right h21,
        min_eq_right (by omega), min_eq_right (by omega)]
      omega
    · rw [if_neg hwide] at hc1 hc2
      simp only [Option.some.injEq] at hc1 hc2
      subst hc1
      subst hc2
      exact ⟨rfl, rfl, rfl, rfl⟩

/-- C9: shift monotonicity.  In both branches, when no clamping is
triggered (the edge-correction rule fixes both raw boxes, and — in the
face branch — the aspect-correction re-clamps bind on neither box),
adding a positive `d` to `shift_x` translates `left` and `right` by
exactly `d` and leaves `top` and `bottom` unchanged; symmetrically,
adding `e` to `shift_y` translates `top` and `bottom` by exactly `e`
and leaves `left` and `right` unchanged. -/
theorem shift_translation :
    (∀ (W H tw th : ℤ) (zoom : ℚ) (sx sy d : ℤ),
      0 < d →
      ConstrainFixes (centerCropRaw W H tw th zoom sx sy) W H →
      ConstrainFixes (centerCropRaw W H tw th zoom (sx + d) sy) W H →
      (centerCrop W H tw th zoom (sx + d) sy).left =
        (centerCrop W H tw th zoom sx sy).left + d ∧
      (centerCrop W H tw th zoom (sx + d) sy).right =
        (centerCrop W H tw th zoom sx sy).right + d ∧
      (centerCrop W H tw th zoom (sx + d) sy).top =
        (centerCrop W H tw th zoom sx sy).top ∧
      (centerCrop W H tw th zoom (sx + d) sy).bottom =
        (centerCrop W H tw th zoom sx sy).bottom) ∧
    (∀ (W H tw th : ℤ) (zoom : ℚ) (sx sy e : ℤ),
      0 < e →
      ConstrainFixes (centerCropRaw W H tw th zoom sx sy) W H →
      ConstrainFixes (centerCropRaw W H tw th zoom sx (sy + e)) W H →
      (centerCrop W H tw th zoom sx (sy + e)).top =
        (centerCrop W H tw th zoom sx sy).top + e ∧
      (centerCrop W H tw th zoom sx (sy + e)).bottom =
        (centerCrop W H tw th zoom sx sy).bottom + e ∧
      (centerCrop W H tw th zoom sx (sy + e)).left =
        (centerCrop W H tw th zoom sx sy).left ∧
      (centerCrop W H tw th zoom sx (sy + e)).right =
        (centerCrop W H tw th zoom sx sy).right) ∧
    (∀ (f : FaceBox) (pt pb ps zoom : ℚ) (sx sy d W H tw th : ℤ)
        (c1 c2 : CropRect),
      0 < d →
      ConstrainFixes (faceCropRaw f.x f.y f.w f.h pt pb ps zoom sx sy) W H →
      ConstrainFixes (faceCropRaw f.x f.y f.w f.h pt pb ps zoom (sx + d) sy) W H →
      aspectClampFree (faceCropRaw f.x f.y f.w f.h pt pb ps zoom sx sy).left
        (faceCropRaw f.x f.y f.w f.h pt pb ps zoom sx sy).top
        (faceCropRaw f.x f.y f.w f.h pt pb ps zoom sx sy).right
        (faceCropRaw f.x f.y f.w f.h pt pb ps zoom sx sy).bottom
        W H tw th = true →
      aspectClampFree
        ((faceCropRaw f.x f.y f.w f.h pt pb ps zoom sx sy).left + d)
        (faceCropRaw f.x f.y f.w f.h pt pb ps zoom sx sy).top
        ((faceCropRaw f.x f.y f.w f.h pt pb ps zoom sx sy).right + d)
        (faceCropRaw f.x f.y f.w f.h pt pb ps zoom sx sy).bottom
        W H tw th = true →
      faceCrop f pt pb ps zoom sx sy W H tw th = some c1 →
      faceCrop f pt pb ps zoom (sx + d) sy W H tw th = some c2 →
      c2.left = c1.left + d ∧ c2.right = c1.right + d ∧
      c2.top = c1.top ∧ c2.bottom = c1.bottom) ∧
    (∀ (f : FaceBox) (pt pb ps zoom : ℚ) (sx sy e W H tw th : ℤ)
        (c1 c2 : CropRect),
      0 < e →
      ConstrainFixes (faceCropRaw f.x f.y f.w f.h pt pb ps zoom sx sy) W H →
      ConstrainFixes (faceCropRaw f.x f.y f.w f.h pt pb ps zoom sx (sy + e)) W H →
      aspectClampFree (faceCropRaw f.x f.y f.w f.h pt pb ps zoom sx sy).left
        (faceCropRaw f.x f.y f.w f.h pt pb ps zoom sx sy).top
        (faceCropRaw f.x f.y f.w f.h pt pb ps zoom sx sy).right
        (faceCropRaw f.x f.y f.w f.h pt pb ps zoom sx sy).bottom
        W H tw th = true →
      aspectClampFree
        (faceCropRaw f.x f.y f.w f.h pt pb ps zoom sx sy).left
        ((faceCropRaw f.x f.y f.w f.h pt pb ps zoom sx sy).top + e)
        (faceCropRaw f.x f.y f.w f.h pt pb ps zoom sx sy).right
        ((faceCropRaw f.x f.y f.w f.h pt pb ps zoom sx sy).bottom + e)
        W H tw th = true →
      faceCrop f pt pb ps zoom sx sy W H tw th = some c1 →
      faceCrop f pt pb ps zoom sx (sy + e) W H tw th = some c2 →
      c2.top = c1.top + e ∧ c2.bottom = c1.bottom + e ∧
      c2.left = c1.left ∧ c2.right = c1.right) := by
  refine ⟨?_, ?_, ?_, ?_⟩
  · intro W H tw th zoom sx sy d _hd h1 h2
    unfold ConstrainFixes at h1 h2
    unfold centerCrop
    rw [h1, h2, centerCropRaw_shift_x W H tw th zoom sx sy d]
    exact ⟨rfl, rfl, rfl, rfl⟩
  · intro W H tw th zoom sx sy e _he h1 h2
    unfold ConstrainFixes at h1 h2
    unfold centerCrop
    rw [h1, h2, centerCropRaw_shift_y W H tw th zoom sx sy e]
    exact ⟨rfl, rfl, rfl, rfl⟩
  · intro f pt pb ps zoom sx sy d W H tw th c1 c2 _hd h1 h2 hfree1 hfree2 hc1 hc2
    unfold ConstrainFixes at h1 h2
    simp only [faceCrop] at hc1 hc2
    rw [h1] at hc1
    rw [h2, faceCropRaw_shift_x f.x f.y f.w f.h pt pb ps zoom sx sy d] at hc2
    dsimp only at hc2
    exact faceAspect_shift_x _ _ _ _ _ _ _ _ d c1 c2 hfree1 hfree2 hc1 hc2
  · intro f pt pb ps zoom sx sy e W H tw th c1 c2 _he h1 h2 hfree1 hfree2 hc1 hc2
    unfold ConstrainFixes at h1 h2
    simp only [faceCrop] at hc1 hc2
    rw [h1] at hc1
    rw [h2, faceCropRaw_shift_y f.x f.y f.w f.h pt pb ps zoom sx sy e] at hc2
    dsimp only at hc2
    exact faceAspect_shift_y _ _ _ _ _ _ _ _ e c1 c2 hfree1 hfree2 hc1 hc2

/-- Witness for `shift_translation`: on a 1000×1000 image with the
scenario-1 parameters, raising `shift_x` from 0 to 10 moves the center
crop from (100,0,900,1000) to (110,0,910,1000). -/
theorem shift_translation_witness :
    (centerCrop 1000 1000 400 500 1 (0 + 10) 0).left =
      (centerCrop 1000 1000 400 500 1 0 0).left + 10 ∧
    (centerCrop 1000 1000 400 500 1 (0 + 10) 0).right =
      (centerCrop 1000 1000 400 500 1 0 0).right + 10 ∧
    (centerCrop 1000 1000 400 500 1 (0 + 10) 0).top =
      (centerCrop 1000 1000 400 500 1 0 0).top ∧
    (centerCrop 1000 1000 400 500 1 (0 + 10) 0).bottom =
      (centerCrop 1000 1000 400 500 1 0 0).bottom :=
  shift_translation.1 1000 1000 400 500 1 0 0 10 (by decide)
    (by norm_num [ConstrainFixes, constrainCropBounds, centerCropRaw, pyInt,
      fdiv_two])
    (by norm_num [ConstrainFixes, constrainCropBounds, centerCropRaw, pyInt,
      fdiv_two])

/-- C1: for every cropped image of positive dimensions and every positive
target size, `_finalize_image` returns an image whose dimensions are
exactly `(target_width, target_height)`: the final `resize(target_size)`
forces the exact size whatever thumbnail and border produced. -/
theorem finalize_target_size (cw ch tw th : ℤ)
    (hcw : 0 < cw) (hch : 0 < ch) (htw : 0 < tw) (hth : 0 < th) :
    finalizeImageSize cw ch tw th = (tw, th) := rfl

/-- Witness for `finalize_target_size`: an 800×1000 crop finalized to
target 400×500 is exactly 400×500. -/
theorem finalize_target_size_witness :
    finalizeImageSize 800 1000 400 500 = (400, 500) :=
  finalize_target_size 800 1000 400 500 (by decide) (by decide) (by decide)
    (by decide)

/-- C7 counterexample: `_finalize_image` mutates the image passed to it.
`Image.thumbnail` resizes its receiver in place, so after finalizing an
800×1000 crop to target 400×500 the caller's cropped image measures
400×500, not its original 800×1000. -/
theorem finalize_mutates_cropped_counterexample :
    finalizeCroppedSizeAfter 800 1000 400 500 ≠ (800, 1000) := by
  norm_num [finalizeCroppedSizeAfter, thumbnailSize, roundAspect]

/-- C7 (amended): the core never mutates the caller's original input image
(`process_image` only reads it: `np.array` copies and `image.crop`
allocates a new image), and every operation returns a fresh image; but
`_finalize_image` does mutate its `cropped` argument in place via
`Image.thumbnail`.  The in-place thumbnail is a no-op exactly when the
cropped image already fits inside the target box, and only then is the
`cropped` argument unchanged after the call. -/
theorem finalize_no_mutation_when_fits (cw ch tw th : ℤ)
    (h1 : cw ≤ tw) (h2 : ch ≤ th) :
    finalizeCroppedSizeAfter cw ch tw th = (cw, ch) := by
  unfold finalizeCroppedSizeAfter thumbnailSize
  rw [if_pos (⟨h1, h2⟩ : tw ≥ cw ∧ th ≥ ch)]

/-- Witness for `finalize_no_mutation_when_fits`: a 300×400 crop passed to
a 400×500 finalization is left untouched. -/
theorem finalize_no_mutation_when_fits_witness :
    finalizeCroppedSizeAfter 300 400 400 500 = (300, 400) :=
  finalize_no_mutation_when_fits 300 400 400 500 (by decide) (by decide)

/-- Replicated-luma pixels are fixed points of the luma transform
(the fixed-point coefficients sum to exactly `2^16`). -/
theorem lumaOf_gray (v : ℕ) : lumaOf ⟨v, v, v⟩ = v := by
  unfold lumaOf
  have h : 19595 * v + 38470 * v + 7471 * v = 65536 * v := by ring
  rw [h]
  exact Nat.mul_div_cancel_left v (by norm_num)

/-- The per-pixel grayscale conversion is idempotent. -/
theorem grayPixel_idem (p : RGB) : grayPixel (grayPixel p) = grayPixel p := by
  simp [grayPixel, lumaOf_gray]

/-- C8: `_convert_to_grayscale` returns a 3-channel image whose R, G and B
values are equal at every pixel, and it is idempotent: applying it to its
own output reproduces exactly the same pixel values. -/
theorem toGrayscale_equal_channels_idempotent :
    (∀ (img : List RGB) (p : RGB), p ∈ convertToGrayscale img →
      p.r = p.g ∧ p.g = p.b) ∧
    (∀ img : List RGB,
      convertToGrayscale (convertToGrayscale img) = convertToGrayscale img) := by
  constructor
  · intro img p hp
    simp only [convertToGrayscale, List.mem_map] at hp
    obtain ⟨q, _, hq⟩ := hp
    subst hq
    exact ⟨rfl, rfl⟩
  · intro img
    induction img with
    | nil => rfl
    | cons a l ih =>
      simp only [convertToGrayscale, List.map_cons] at ih ⊢
      rw [grayPixel_idem]
      exact congrArg (List.cons (grayPixel a)) ih

/-- Witness for `toGrayscale_equal_channels_idempotent`: the pixel
(10, 200, 30) converts to a pixel with equal channels. -/
theorem toGrayscale_equal_channels_witness :
    (grayPixel ⟨10, 200, 30⟩).r = (grayPixel ⟨10, 200, 30⟩).g ∧
    (grayPixel ⟨10, 200, 30⟩).g = (grayPixel ⟨10, 200, 30⟩).b :=
  toGrayscale_equal_channels_idempotent.1 [⟨10, 200, 30⟩]
    (grayPixel ⟨10, 200, 30⟩) (by decide)

/-- C6 (amended): `ProcessingParameters.validate` — the session-state-level
validator — does fail whenever a padding ratio is negative or exceeds 2.0
(given the checks before it pass), raising the padding `ValidationError`.
But the validation performed before crop computation on the processing
path, `_validate_processing_params`, checks no padding at all: see the
counterexample, where a negative padding reaches the crop computation. -/
theorem ppValidate_rejects_bad_padding (p : Params)
    (hd1 : 0 < p.targetWidth) (hd2 : 0 < p.targetHeight)
    (hz : (9/10 : ℚ) ≤ p.zoomOutFactor ∧ p.zoomOutFactor ≤ 3)
    (hbad : p.paddingTop < 0 ∨ 2 < p.paddingTop ∨
            p.paddingBottom < 0 ∨ 2 < p.paddingBottom ∨
            p.paddingSide < 0 ∨ 2 < p.paddingSide) :
    ppValidate p = some .invalidPadding := by
  unfold ppValidate
  rw [if_neg (by omega : ¬(p.targetWidth ≤ 0 ∨ p.targetHeight ≤ 0)),
      if_neg (not_not_intro hz),
      if_pos (show ¬(0 ≤ p.paddingTop ∧ p.paddingTop ≤ 2 ∧
          0 ≤ p.paddingBottom ∧ p.paddingBottom ≤ 2 ∧
          0 ≤ p.paddingSide ∧ p.paddingSide ≤ 2) by
        intro hall
        obtain ⟨a1, a2, a3, a4, a5, a6⟩ := hall
        rcases hbad with h | h | h | h | h | h <;> linarith)]

/-- Witness for `ppValidate_rejects_bad_padding`: padding_top_ratio = 3.0
is rejected as invalid padding. -/
theorem ppValidate_rejects_bad_padding_witness :
    ppValidate paramsBigPadding = some .invalidPadding :=
  ppValidate_rejects_bad_padding paramsBigPadding
    (by norm_num [paramsBigPadding]) (by norm_num [paramsBigPadding])
    (by norm_num [paramsBigPadding]) (by norm_num [paramsBigPadding])

/-- C6 counterexample: a parameter set with `padding_top_ratio = -1.0`
passes `_validate_processing_params` — the only validation run by
`process_image` before crop computation — and the crop computation then
proceeds and produces a rectangle.  The padding range check lives only in
`ProcessingParameters.validate`, which the processing path does not call. -/
theorem processor_skips_padding_check_counterexample :
    validateProcessingParams paramsNegPadding = none ∧
    planCrop none paramsNegPadding 1000 1000 = some ⟨100, 0, 900, 1000⟩ :=
  ⟨by norm_num [validateProcessingParams, paramsNegPadding],
   by norm_num [planCrop, centerCrop, centerCropRaw, constrainCropBounds,
     pyInt, paramsNegPadding, fdiv_two]⟩
